import Mathlib

/-!
Verification development for the contact-and-task management repository.

The repository keeps one in-memory array per entity kind (contacts, tasks),
mirrored to a JSON file after every mutation.  We embed each store as a
structure holding the in-memory list (`mem`), the file contents (`file`,
a list of entities standing for the serialized JSON document) and, for the
task store, a count of file writes.  JavaScript numbers are embedded as
exact integers (`Int`), JS strings as Lean `String`s, and `undefined`-able
fields of update payloads as `Option`s.  Timestamps produced by
`new Date().toISOString()` are passed in as an explicit `now : String`
parameter; "today" used by the due-date validator is passed as a calendar
date triple.
-/

namespace ContactMgmt

/-- Mirrors the JS pattern `findIndex` + in-place mutation of the found
element: rewrites the first element satisfying `p` with `f`, leaving all
other elements (and the order) unchanged. -/
def modifyFirst (p : α → Bool) (f : α → α) : List α → List α
  | [] => []
  | x :: xs => if p x then f x :: xs else x :: modifyFirst p f xs

theorem modifyFirst_decomp (p : α → Bool) (f : α → α) (l1 : List α) (c : α) (l2 : List α)
    (h1 : ∀ x ∈ l1, p x = false) (hc : p c = true) :
    modifyFirst p f (l1 ++ c :: l2) = l1 ++ f c :: l2 := by
  induction l1 with
  | nil => simp [modifyFirst, hc]
  | cons x xs ih =>
    have hx : p x = false := h1 x (by simp)
    simp only [List.cons_append, modifyFirst, hx, Bool.false_eq_true, if_false,
      List.append_eq]
    rw [ih (fun y hy => h1 y (by simp [hy]))]

theorem find?_decomp (p : α → Bool) (l1 : List α) (c : α) (l2 : List α)
    (h1 : ∀ x ∈ l1, p x = false) (hc : p c = true) :
    (l1 ++ c :: l2).find? p = some c := by
  induction l1 with
  | nil => simp [List.find?, hc]
  | cons x xs ih =>
    have hx : p x = false := h1 x (by simp)
    simp only [List.cons_append, List.find?, hx]
    exact ih (fun y hy => h1 y (by simp [hy]))

theorem eraseP_decomp (p : α → Bool) (l1 : List α) (c : α) (l2 : List α)
    (h1 : ∀ x ∈ l1, p x = false) (hc : p c = true) :
    (l1 ++ c :: l2).eraseP p = l1 ++ l2 := by
  induction l1 with
  | nil => simp [List.eraseP_cons, hc]
  | cons x xs ih =>
    have hx : p x = false := h1 x (by simp)
    simp only [List.cons_append, List.eraseP_cons, hx, cond_false]
    rw [ih (fun y hy => h1 y (by simp [hy]))]

theorem map_modifyFirst (p : α → Bool) (f : α → α) (g : α → β)
    (hg : ∀ x, g (f x) = g x) : ∀ l : List α, (modifyFirst p f l).map g = l.map g
  | [] => rfl
  | x :: xs => by
    by_cases hx : p x
    · simp [modifyFirst, hx, hg]
    · simp [modifyFirst, hx, map_modifyFirst p f g hg xs]

/-! ### Decimal digit strings

Embedding of `Number.prototype.toString()` (for integral values, decimal
notation) and of `parseInt(s, 10)`.  `parseInt` trims whitespace, accepts an
optional sign, then reads the longest leading run of decimal digits,
yielding NaN (here: `none`) when that run is empty. -/

def digitChar (d : Nat) : Char := Char.ofNat (48 + d)

def digitVal (c : Char) : Nat := c.toNat - 48

def digitsVal (cs : List Char) : Nat := cs.foldl (fun a c => 10 * a + digitVal c) 0

/-- Decimal representation of a natural number (JS `toString` on a
non-negative integral number). -/
def natToString (n : Nat) : String :=
  if n = 0 then "0" else ⟨((Nat.digits 10 n).reverse.map digitChar)⟩

/-- Decimal representation of an integer (JS `toString` on an integral
number). -/
def intToString (i : Int) : String :=
  if i < 0 then "-" ++ natToString i.natAbs else natToString i.toNat

def isWs (c : Char) : Bool := c.isWhitespace

def trimChars (cs : List Char) : List Char :=
  ((cs.dropWhile isWs).reverse.dropWhile isWs).reverse

def leadingDigits (cs : List Char) : Option Nat :=
  if (cs.takeWhile Char.isDigit).isEmpty then none
  else some (digitsVal (cs.takeWhile Char.isDigit))

/-- Embedding of `parseInt(s, 10)`: `none` stands for NaN. -/
def jsParseInt (s : String) : Option Int :=
  match trimChars s.data with
  | [] => none
  | c :: rest =>
    if c = '-' then (leadingDigits rest).map (fun n => -(n : Int))
    else if c = '+' then (leadingDigits rest).map (fun n => (n : Int))
    else (leadingDigits (c :: rest)).map (fun n => (n : Int))

theorem digitChar_isDigit {d : Nat} (h : d < 10) : (digitChar d).isDigit = true := by
  interval_cases d <;> decide

theorem digitVal_digitChar {d : Nat} (h : d < 10) : digitVal (digitChar d) = d := by
  interval_cases d <;> decide

theorem ws_not_digit {c : Char} (h : isWs c = true) : c.isDigit = false := by
  simp only [isWs, Char.isWhitespace, Bool.or_eq_true, decide_eq_true_eq] at h
  rcases h with ((h | h) | h) | h <;> (subst h; decide)

theorem isDigit_not_ws {c : Char} (h : c.isDigit = true) : isWs c = false := by
  cases hw : isWs c with
  | false => rfl
  | true => rw [ws_not_digit hw] at h; cases h

theorem dropWhile_eq_self_of_all {p : α → Bool} {l : List α}
    (h : ∀ x ∈ l, p x = false) : l.dropWhile p = l := by
  cases l with
  | nil => rfl
  | cons x xs => simp [List.dropWhile, h x (by simp)]

theorem trimChars_eq_self {cs : List Char} (h : ∀ c ∈ cs, isWs c = false) :
    trimChars cs = cs := by
  unfold trimChars
  rw [dropWhile_eq_self_of_all h,
      dropWhile_eq_self_of_all (fun c hc => h c (List.mem_reverse.mp hc)),
      List.reverse_reverse]

theorem takeWhile_eq_self_of_all {p : α → Bool} {l : List α}
    (h : ∀ x ∈ l, p x = true) : l.takeWhile p = l := by
  induction l with
  | nil => rfl
  | cons x xs ih =>
    simp [List.takeWhile, h x (by simp), ih (fun y hy => h y (by simp [hy]))]

theorem digitsVal_reverse_map (l : List Nat) (h : ∀ d ∈ l, d < 10) :
    digitsVal ((l.reverse).map digitChar) = Nat.ofDigits 10 l := by
  rw [List.map_reverse]
  unfold digitsVal
  rw [List.foldl_reverse, List.foldr_map]
  induction l with
  | nil => simp [Nat.ofDigits]
  | cons d ds ih =>
    simp only [List.foldr_cons, Nat.ofDigits_cons,
      ih (fun x hx => h x (by simp [hx]))]
    have hd := digitVal_digitChar (h d (by simp))
    omega

theorem natToString_all_digits (n : Nat) : ∀ c ∈ (natToString n).data, c.isDigit = true := by
  unfold natToString
  by_cases h : n = 0
  · simp [h]
  · simp only [h, if_false]
    intro c hc
    rcases List.mem_map.mp hc with ⟨d, hd, rfl⟩
    exact digitChar_isDigit (Nat.digits_lt_base (by norm_num) (List.mem_reverse.mp hd))

theorem natToString_ne_nil (n : Nat) : (natToString n).data ≠ [] := by
  unfold natToString
  by_cases h : n = 0
  · simp [h]
  · simp only [h, if_false]
    simp only [String.data, ne_eq, List.map_eq_nil_iff, List.reverse_eq_nil_iff]
    exact Nat.digits_ne_nil_iff_ne_zero.mpr h

theorem digitsVal_natToString (n : Nat) : digitsVal (natToString n).data = n := by
  unfold natToString
  by_cases h : n = 0
  · simp [h, digitsVal, digitVal]
  · simp only [h, if_false]
    show digitsVal (((Nat.digits 10 n).reverse).map digitChar) = n
    rw [digitsVal_reverse_map _ (fun d hd => Nat.digits_lt_base (by norm_num) hd)]
    exact Nat.ofDigits_digits 10 n

theorem jsParseInt_natToString (n : Nat) : jsParseInt (natToString n) = some (n : Int) := by
  unfold jsParseInt
  have hdig := natToString_all_digits n
  have htrim : trimChars (natToString n).data = (natToString n).data :=
    trimChars_eq_self (fun c hc => isDigit_not_ws (hdig c hc))
  rw [htrim]
  cases hd : (natToString n).data with
  | nil => exact absurd hd (natToString_ne_nil n)
  | cons c rest =>
    have hcdig : c.isDigit = true := hdig c (by rw [hd]; simp)
    have hcm : c ≠ '-' := by
      intro h; subst h; simp [Char.isDigit] at hcdig
    have hcp : c ≠ '+' := by
      intro h; subst h; simp [Char.isDigit] at hcdig
    simp only [if_neg hcm, if_neg hcp]
    unfold leadingDigits
    have hall : ∀ x ∈ c :: rest, x.isDigit = true := by
      intro x hx; exact hdig x (by rw [hd]; exact hx)
    have hval : digitsVal (c :: rest) = n := by rw [← hd]; exact digitsVal_natToString n
    rw [takeWhile_eq_self_of_all hall]
    simp [hval]

theorem jsParseInt_intToString_nonneg (i : Int) (h : 0 ≤ i) :
    jsParseInt (intToString i) = some i := by
  unfold intToString
  rw [if_neg (by omega)]
  rw [jsParseInt_natToString]
  congr 1
  omega

/-! ### Id assignment

`const maxId = Math.max(0, ...db.map((x) => parseInt(x.id, 10)));`
`const newId = (maxId + 1).toString();`
A NaN among the parsed ids makes `Math.max` return NaN and the new id the
string "NaN". -/

/-- `Math.max(0, ...ids.map(parseInt))` for the case where every id parses. -/
def maxNumericId (ids : List String) : Int :=
  ids.foldr (fun s m => max ((jsParseInt s).getD 0) m) 0

def nextId (ids : List String) : String :=
  if ids.all (fun s => (jsParseInt s).isSome) then intToString (maxNumericId ids + 1)
  else "NaN"

theorem maxNumericId_nonneg (ids : List String) : 0 ≤ maxNumericId ids := by
  induction ids with
  | nil => simp [maxNumericId]
  | cons s rest ih =>
    simp only [maxNumericId, List.foldr_cons] at *
    exact le_max_of_le_right ih

theorem le_maxNumericId {ids : List String} {s : String} {m : Int}
    (hs : s ∈ ids) (hp : jsParseInt s = some m) : m ≤ maxNumericId ids := by
  induction ids with
  | nil => cases hs
  | cons t rest ih =>
    simp only [maxNumericId, List.foldr_cons]
    rcases List.mem_cons.mp hs with rfl | hmem
    · rw [hp]; exact le_max_of_le_left (by simp)
    · exact le_max_of_le_right (ih hmem)

theorem nextId_eq (ids : List String) (h : ∀ s ∈ ids, (jsParseInt s).isSome) :
    nextId ids = intToString (maxNumericId ids + 1) := by
  unfold nextId
  rw [if_pos (List.all_eq_true.mpr h)]

theorem jsParseInt_nextId (ids : List String) (h : ∀ s ∈ ids, (jsParseInt s).isSome) :
    jsParseInt (nextId ids) = some (maxNumericId ids + 1) := by
  rw [nextId_eq ids h]
  exact jsParseInt_intToString_nonneg _ (by have := maxNumericId_nonneg ids; omega)

theorem nextId_fresh (ids : List String) (h : ∀ s ∈ ids, (jsParseInt s).isSome) :
    ∀ s ∈ ids, s ≠ nextId ids := by
  intro s hs heq
  rcases Option.isSome_iff_exists.mp (h s hs) with ⟨m, hm⟩
  have hle : m ≤ maxNumericId ids := le_maxNumericId hs hm
  have : jsParseInt s = some (maxNumericId ids + 1) := by
    rw [heq]; exact jsParseInt_nextId ids h
  rw [hm] at this
  have : m = maxNumericId ids + 1 := by injection this
  omega

theorem natToString_one : natToString 1 = "1" := by
  unfold natToString
  rw [if_neg (by norm_num),
    Nat.digits_def' (show 1 < 10 by norm_num) (show 0 < 1 by norm_num)]
  norm_num
  rfl

theorem nextId_nil : nextId [] = "1" := by
  show natToString 1 = "1"
  exact natToString_one

/-! ### Data model (`types/contact.types.ts`, `types/task.types.ts`)

Optional / possibly-`undefined` fields are embedded as `Option`s. -/

structure Contact where
  id : String
  name : String
  email : String
  phone : String
  address : String
  createdAt : String
deriving DecidableEq, Repr

structure CreateContactInput where
  name : String
  email : String
  phone : String
  address : String
deriving DecidableEq, Repr

structure UpdateContactInput where
  name : Option String
  email : Option String
  phone : Option String
  address : Option String
deriving DecidableEq, Repr

structure Task where
  id : String
  contactId : String
  title : String
  description : Option String
  completed : Bool
  dueDate : Option String
  createdAt : String
  updatedAt : String
deriving DecidableEq, Repr

structure CreateTaskInput where
  contactId : String
  title : String
  description : Option String
  dueDate : Option String
deriving DecidableEq, Repr

structure UpdateTaskInput where
  title : Option String
  description : Option String
  completed : Option Bool
  dueDate : Option String
deriving DecidableEq, Repr

structure ValidationError where
  field : String
  message : String
deriving DecidableEq, Repr

/-- Embedding of `String.prototype.trim()` (drop leading and trailing
whitespace), written over the character list so that it evaluates by
structural recursion. -/
def jsTrim (s : String) : String := ⟨trimChars s.data⟩

/-! ### Contact validator (`lib/validators/contact.validator.ts`)

Each per-field check returns `{isValid, error?}`; we embed it as the
`error?` component (`none` = valid).  The whole-object checks return the
aggregated error list; `isValid` in the source is just `errors.length === 0`. -/

def validateName (name : String) : Option String :=
  if (jsTrim name).length < 2 ∨ 100 < (jsTrim name).length then
    some ("Name must be between 2-100 characters. You provided "
      ++ toString (jsTrim name).length)
  else none

/-- Embedding of the test of `/^[^\s@]+@[^\s@]+\.[^\s@]+$/`: no whitespace
anywhere, exactly one `@` which is not the first character, and the part
after the `@` contains a `.` that is neither its first nor its last
character. -/
def emailFormat (email : String) : Bool :=
  let cs := email.data
  cs.all (fun c => !(isWs c)) && (cs.count '@' == 1)
    && !(cs.takeWhile (fun c => !(c == '@'))).isEmpty
    && ((((cs.dropWhile (fun c => !(c == '@'))).drop 1).drop 1).dropLast.contains '.')

def validateEmail (email : String) : Option String :=
  if email.length = 0 ∨ 100 < email.length then
    some "Email must be between 1-100 characters"
  else if !(emailFormat email) then some "Invalid email format"
  else none

/-- The test of `/^\d{3}-\d{4}$/`. -/
def phoneFormat (phone : String) : Bool :=
  match phone.data with
  | [a, b, c, d, e, f, g, h] =>
    a.isDigit && b.isDigit && c.isDigit && (d == '-')
      && e.isDigit && f.isDigit && g.isDigit && h.isDigit
  | _ => false

def validatePhone (phone : String) : Option String :=
  if phone.length ≠ 8 then
    some ("Phone must be exactly 8 characters long. You provided "
      ++ toString phone.length ++ " characters.")
  else if !(phoneFormat phone) then some "Phone must be in format: 555-0001"
  else none

def validateAddress (address : String) : Option String :=
  if (jsTrim address).length < 5 ∨ 200 < (jsTrim address).length then
    some ("Address must be between 5-200 characters. You provided "
      ++ toString (jsTrim address).length)
  else none

def pushError (field : String) (check : Option String) : List ValidationError :=
  match check with
  | some msg => [⟨field, msg⟩]
  | none => []

/-- `ContactValidator.validateCreateInput`: runs every field check and
aggregates the errors in field order. -/
def validateCreateInput (input : CreateContactInput) : List ValidationError :=
  pushError "name" (validateName input.name)
    ++ pushError "email" (validateEmail input.email)
    ++ pushError "phone" (validatePhone input.phone)
    ++ pushError "address" (validateAddress input.address)

def pushErrorOpt (field : String) (value : Option String)
    (check : String → Option String) : List ValidationError :=
  match value with
  | some v => pushError field (check v)
  | none => []

/-- `ContactValidator.validateUpdateInput`: only fields present
(`!== undefined`) in the payload are checked. -/
def validateUpdateInput (input : UpdateContactInput) : List ValidationError :=
  pushErrorOpt "name" input.name validateName
    ++ pushErrorOpt "email" input.email validateEmail
    ++ pushErrorOpt "phone" input.phone validatePhone
    ++ pushErrorOpt "address" input.address validateAddress

/-! ### Task validator (`lib/validators/task.validator.ts`)

The due-date check compares calendar dates with the time-of-day zeroed on
both sides (`new Date(year, month - 1, day)` vs `new Date()` after
`setHours(0,0,0,0)`); local midnights are ordered exactly as the
(year, month, day) triples, which is how we embed the comparison.  The
current date is passed in explicitly as `today`. -/

structure Date3 where
  year : Nat
  month : Nat
  day : Nat
deriving DecidableEq, Repr

/-- The test of `/^\d{4}-\d{2}-\d{2}$/` together with
`dueDate.split('-').map(Number)`: `some` of the parsed components exactly
when the string has the `YYYY-MM-DD` shape. -/
def parseDueDate (s : String) : Option Date3 :=
  match s.data with
  | [y1, y2, y3, y4, h1, m1, m2, h2, d1, d2] =>
    if y1.isDigit && y2.isDigit && y3.isDigit && y4.isDigit && (h1 == '-')
        && m1.isDigit && m2.isDigit && (h2 == '-') && d1.isDigit && d2.isDigit then
      some ⟨digitsVal [y1, y2, y3, y4], digitsVal [m1, m2], digitsVal [d1, d2]⟩
    else none
  | _ => none

def isLeapYear (y : Nat) : Bool := (y % 4 == 0 && y % 100 != 0) || y % 400 == 0

def daysInMonth (y m : Nat) : Nat :=
  if m = 2 then (if isLeapYear y then 29 else 28)
  else if m = 4 ∨ m = 6 ∨ m = 9 ∨ m = 11 then 30
  else 31

/-- Embedding of `!isNaN(new Date(s).getTime())` for a string already of
shape `YYYY-MM-DD`: the ECMAScript date-time string parser yields NaN
exactly when the components do not form a real calendar date. -/
def validCalendarDate (dt : Date3) : Bool :=
  1 ≤ dt.month && dt.month ≤ 12 && 1 ≤ dt.day && dt.day ≤ daysInMonth dt.year dt.month

/-- Strict order on date-only values (local midnights compare as the
lexicographic order on the triples). -/
def dateLT (a b : Date3) : Bool :=
  a.year < b.year || (a.year == b.year
    && (a.month < b.month || (a.month == b.month && a.day < b.day)))

/-- `TaskValidator.validateDueDate` (with the current date passed in as
`today`): absent or falsy (`""`) is valid; otherwise the string must match
the regex, parse to a real calendar date, and not be before today. -/
def validateDueDate (today : Date3) (dueDate : Option String) : Option String :=
  match dueDate with
  | none => none
  | some s =>
    if s = "" then none
    else
      match parseDueDate s with
      | none => some "Due date must be in ISO format: YYYY-MM-DD"
      | some dt =>
        if !(validCalendarDate dt) then some "Due date is not a valid date"
        else if dateLT dt today then some "Due date cannot be less than current date"
        else none

def validateTitle (title : String) : Option String :=
  if (jsTrim title).length < 2 ∨ 200 < (jsTrim title).length then
    some ("Title must be between 2-200 characters. You provided "
      ++ toString (jsTrim title).length)
  else none

/-- `TaskValidator.validateDescription`: absent or falsy (`""`) is valid. -/
def validateDescription (description : Option String) : Option String :=
  match description with
  | none => none
  | some s =>
    if s = "" then none
    else if 500 < (jsTrim s).length then
      some ("Description must be 0-500 characters. You provided "
        ++ toString (jsTrim s).length)
    else none

def validateContactId (contactId : String) : Option String :=
  if jsTrim contactId = "" then some "Contact ID is required" else none

/-- `TaskValidator.validateCreateInput`. -/
def validateCreateTaskInput (today : Date3) (input : CreateTaskInput) :
    List ValidationError :=
  pushError "contactId" (validateContactId input.contactId)
    ++ pushError "title" (validateTitle input.title)
    ++ pushError "description" (validateDescription input.description)
    ++ pushError "dueDate" (validateDueDate today input.dueDate)

/-- `TaskValidator.validateUpdateInput`. -/
def validateUpdateTaskInput (today : Date3) (input : UpdateTaskInput) :
    List ValidationError :=
  pushErrorOpt "title" input.title validateTitle
    ++ (match input.description with
        | some v => pushError "description" (validateDescription (some v))
        | none => [])
    ++ (match input.dueDate with
        | some v => pushError "dueDate" (validateDueDate today (some v))
        | none => [])

/-! ### Contact store (`lib/db/contacts/index.ts`)

`mem` is the in-memory `contactsDb` array and `file` the entity list held
in the backing JSON document (`{ contacts: [...] }`).  `saveToFile`
overwrites the file with the in-memory collection; the variant of the
store used by the phone-unique contact service additionally re-reads the
file before its read operations (`reloadDatabase`), embedded by
`reloadC`. -/

structure ContactState where
  mem : List Contact
  file : List Contact
deriving DecidableEq, Repr

def reloadC (st : ContactState) : ContactState := { st with mem := st.file }

def saveC (mem : List Contact) : ContactState := { mem := mem, file := mem }

/-- The `newContact` object built by the store's `createContact`. -/
def newContact (now : String) (st : ContactState) (input : CreateContactInput) : Contact :=
  { id := nextId (st.mem.map (fun c => c.id)), name := input.name,
    email := input.email, phone := input.phone, address := input.address,
    createdAt := now }

/-- `createContact` (store level): next id from the numeric maximum of the
existing ids, `createdAt` stamped with the current timestamp, entity
appended and the file rewritten. -/
def dbCreateContact (now : String) (st : ContactState) (input : CreateContactInput) :
    Contact × ContactState :=
  (newContact now st input, saveC (st.mem ++ [newContact now st input]))

/-- The four `if (updates.x !== undefined) contact.x = updates.x` lines. -/
def applyContactUpdates (u : UpdateContactInput) (c : Contact) : Contact :=
  { c with
    name := u.name.getD c.name,
    email := u.email.getD c.email,
    phone := u.phone.getD c.phone,
    address := u.address.getD c.address }

/-- `updateContact` (store level): find by id, raise not-found if absent,
otherwise mutate only the provided fields of the found element in place
and rewrite the file. -/
def dbUpdateContact (st : ContactState) (id : String) (u : UpdateContactInput) :
    Except String Contact × ContactState :=
  match st.mem.find? (fun c => c.id == id) with
  | none => (Except.error ("Contact with ID " ++ id ++ " not found"), st)
  | some c =>
    (Except.ok (applyContactUpdates u c),
      saveC (modifyFirst (fun c => c.id == id) (applyContactUpdates u) st.mem))

/-- `deleteContact` (store level): returns `false` without raising when the
id is absent, otherwise splices the found element out and rewrites the
file. -/
def dbDeleteContact (st : ContactState) (id : String) : Bool × ContactState :=
  match st.mem.find? (fun c => c.id == id) with
  | none => (false, st)
  | some _ => (true, saveC (st.mem.eraseP (fun c => c.id == id)))

/-! ### Contact service (the variant with the duplicate-phone rule)

`createContact` validates, then rejects a phone already present
(`getContactByPhone`, which reloads from file before scanning), then
delegates to the store.  `updateContact` checks the phone against *other*
records first, then existence, then partial validation, then delegates.
Errors thrown in the source are embedded as `Except.error` carrying the
same message strings. -/

def joinErrors (errs : List ValidationError) : String :=
  "Validation failed: "
    ++ String.intercalate "; " (errs.map (fun e => e.field ++ ": " ++ e.message))

def svcCreateContact (now : String) (st : ContactState) (input : CreateContactInput) :
    Except String Contact × ContactState :=
  if (validateCreateInput input).isEmpty then
    match (reloadC st).mem.find? (fun c => c.phone == input.phone) with
    | some _ =>
      (Except.error "Validation failed: phone: Phone number already exists", reloadC st)
    | none =>
      let r := dbCreateContact now (reloadC st) input
      (Except.ok r.1, r.2)
  else (Except.error (joinErrors (validateCreateInput input)), st)

/-- Continuation of `svcUpdateContact` after the phone-uniqueness gate:
existence check (`getContactById`, reloading), then partial validation,
then the store update. -/
def svcUpdateContactRest (st : ContactState) (id : String) (u : UpdateContactInput) :
    Except String Contact × ContactState :=
  match (reloadC st).mem.find? (fun c => c.id == id) with
  | none => (Except.error ("Contact with ID " ++ id ++ " not found"), reloadC st)
  | some _ =>
    if (validateUpdateInput u).isEmpty then dbUpdateContact (reloadC st) id u
    else (Except.error (joinErrors (validateUpdateInput u)), reloadC st)

def svcUpdateContact (st : ContactState) (id : String) (u : UpdateContactInput) :
    Except String Contact × ContactState :=
  match u.phone with
  | some p =>
    match (reloadC st).mem.find? (fun c => c.phone == p) with
    | some c =>
      if c.id ≠ id then
        (Except.error "Validation failed: phone: Phone number already exists", reloadC st)
      else svcUpdateContactRest (reloadC st) id u
    | none => svcUpdateContactRest (reloadC st) id u
  | none => svcUpdateContactRest st id u

/-! ### Task store (`lib/db/tasks/index.ts`)

This store re-reads the backing file before every operation
(`reloadDatabase`); `writes` counts the file writes performed by
`saveToFile`. -/

structure TaskState where
  mem : List Task
  file : List Task
  writes : Nat
deriving DecidableEq, Repr

def reloadT (st : TaskState) : TaskState := { st with mem := st.file }

def saveT (mem : List Task) (st : TaskState) : TaskState :=
  { mem := mem, file := mem, writes := st.writes + 1 }

/-- The `newTask` object built by the store's `createTask` (`completed`
defaults to `false`, both timestamps set to `now`). -/
def newTask (now : String) (st : TaskState) (input : CreateTaskInput) : Task :=
  { id := nextId ((reloadT st).mem.map (fun t => t.id)),
    contactId := input.contactId, title := input.title,
    description := input.description, completed := false,
    dueDate := input.dueDate, createdAt := now, updatedAt := now }

/-- `createTask` (store level). -/
def dbCreateTask (now : String) (st : TaskState) (input : CreateTaskInput) :
    Task × TaskState :=
  (newTask now st input, saveT ((reloadT st).mem ++ [newTask now st input]) (reloadT st))

/-- The `if (updates.x !== undefined) task.x = updates.x` lines plus the
unconditional `task.updatedAt = new Date().toISOString()`. -/
def applyTaskUpdates (now : String) (u : UpdateTaskInput) (t : Task) : Task :=
  { t with
    title := u.title.getD t.title,
    description := (match u.description with | some d => some d | none => t.description),
    completed := u.completed.getD t.completed,
    dueDate := (match u.dueDate with | some d => some d | none => t.dueDate),
    updatedAt := now }

/-- `updateTask` (store level). -/
def dbUpdateTask (now : String) (st : TaskState) (id : String) (u : UpdateTaskInput) :
    Except String Task × TaskState :=
  match (reloadT st).mem.find? (fun t => t.id == id) with
  | none => (Except.error ("Task with ID " ++ id ++ " not found"), reloadT st)
  | some t =>
    (Except.ok (applyTaskUpdates now u t),
      saveT (modifyFirst (fun t => t.id == id) (applyTaskUpdates now u) (reloadT st).mem)
        (reloadT st))

/-- `toggleTask` (store level): flips `completed`, refreshes `updatedAt`. -/
def dbToggleTask (now : String) (st : TaskState) (id : String) :
    Except String Task × TaskState :=
  match (reloadT st).mem.find? (fun t => t.id == id) with
  | none => (Except.error ("Task with ID " ++ id ++ " not found"), reloadT st)
  | some t =>
    (Except.ok { t with completed := !t.completed, updatedAt := now },
      saveT (modifyFirst (fun t => t.id == id)
          (fun t => { t with completed := !t.completed, updatedAt := now })
          (reloadT st).mem)
        (reloadT st))

/-- `deleteTask` (store level). -/
def dbDeleteTask (st : TaskState) (id : String) : Bool × TaskState :=
  match (reloadT st).mem.find? (fun t => t.id == id) with
  | none => (false, reloadT st)
  | some _ => (true, saveT ((reloadT st).mem.eraseP (fun t => t.id == id)) (reloadT st))

/-- `deleteTasksByContactId` (store level, the cascade primitive): keeps the
non-matching tasks (`tasksDb = tasksDb.filter(...)`), returns
`beforeCount - afterCount`, and rewrites the file only when that number is
positive. -/
def dbDeleteTasksByContactId (st : TaskState) (contactId : String) : Nat × TaskState :=
  if 0 < (reloadT st).mem.length
      - ((reloadT st).mem.filter (fun t => !(t.contactId == contactId))).length then
    ((reloadT st).mem.length
       - ((reloadT st).mem.filter (fun t => !(t.contactId == contactId))).length,
     saveT ((reloadT st).mem.filter (fun t => !(t.contactId == contactId))) (reloadT st))
  else
    ((reloadT st).mem.length
       - ((reloadT st).mem.filter (fun t => !(t.contactId == contactId))).length,
     { reloadT st with mem := (reloadT st).mem.filter (fun t => !(t.contactId == contactId)) })

/-! ### Task service (`services/taskService.ts`) -/

def svcCreateTask (today : Date3) (now : String) (st : TaskState)
    (input : CreateTaskInput) : Except String Task × TaskState :=
  if (validateCreateTaskInput today input).isEmpty then
    let r := dbCreateTask now st input
    (Except.ok r.1, r.2)
  else (Except.error (joinErrors (validateCreateTaskInput today input)), st)

/-! ### `sortContacts` (contact service)

`[...contacts].sort(cmp)`: copies the array and sorts it with a
three-valued comparator whose sign is flipped for `desc`.  `toLowerCase`
is embedded as `String.toLower`, and `new Date(x).getTime()` as an
arbitrary `getTime : String → Int` parameter (the host's date parser,
external to the repository).  JavaScript's `Array.prototype.sort` is a
stable sort agreeing with any stable sort for a consistent comparator; we
embed it with `List.mergeSort` on `cmp a b <= 0`. -/

inductive SortField where
  | name
  | email
  | createdAt
deriving DecidableEq, Repr

inductive SortDir where
  | asc
  | desc
deriving DecidableEq, Repr

/-- `if (A < B) return dir ? -1 : 1; if (A > B) return dir ? 1 : -1; return 0`. -/
def cmpVal {α : Type} [LinearOrder α] (x y : α) (direction : SortDir) : Int :=
  if x < y then (match direction with | .asc => -1 | .desc => 1)
  else if y < x then (match direction with | .asc => 1 | .desc => -1)
  else 0

def contactCompare (getTime : String → Int) (sortBy : SortField) (direction : SortDir)
    (a b : Contact) : Int :=
  match sortBy with
  | .name => cmpVal a.name.toLower b.name.toLower direction
  | .email => cmpVal a.email.toLower b.email.toLower direction
  | .createdAt => cmpVal (getTime a.createdAt) (getTime b.createdAt) direction

def sortContacts (getTime : String → Int) (contacts : List Contact)
    (sortBy : SortField) (direction : SortDir) : List Contact :=
  contacts.mergeSort (fun a b => contactCompare getTime sortBy direction a b ≤ 0)

/-! ### The phone-uniqueness invariant (claims C1, C2) -/

/-- No two contacts of the collection share a `phone` value. -/
def PhonesDistinct (l : List Contact) : Prop := (l.map (fun c => c.phone)).Nodup

/-- The ids of the collection are pairwise distinct and each parses as a
number (`parseInt` does not yield NaN). -/
def IdsOk (l : List Contact) : Prop :=
  (l.map (fun c => c.id)).Nodup ∧ ∀ c ∈ l, (jsParseInt c.id).isSome = true

/-- Store states whose memory and file agree (as after any complete store
operation) with distinct phones and well-formed ids. -/
def GoodState (st : ContactState) : Prop :=
  st.mem = st.file ∧ PhonesDistinct st.mem ∧ IdsOk st.mem

instance : DecidablePred PhonesDistinct := fun l =>
  inferInstanceAs (Decidable ((l.map (fun c : Contact => c.phone)).Nodup))

instance : DecidablePred IdsOk := fun l =>
  inferInstanceAs (Decidable ((l.map (fun c : Contact => c.id)).Nodup
    ∧ ∀ c ∈ l, (jsParseInt c.id).isSome = true))

instance : DecidablePred GoodState := fun st =>
  inferInstanceAs (Decidable (st.mem = st.file ∧ PhonesDistinct st.mem ∧ IdsOk st.mem))

/-- A Contact Service mutation: `createContact` or `updateContact`. -/
inductive COp where
  | create (now : String) (input : CreateContactInput)
  | update (id : String) (u : UpdateContactInput)

def applyCOp (st : ContactState) : COp → ContactState
  | .create now input => (svcCreateContact now st input).2
  | .update id u => (svcUpdateContact st id u).2

theorem reloadC_eq_self {st : ContactState} (h : st.mem = st.file) : reloadC st = st := by
  obtain ⟨m, f⟩ := st
  cases h
  rfl

theorem find?_eq_some_decomp {p : α → Bool} {l : List α} {c : α}
    (h : l.find? p = some c) :
    ∃ l1 l2, l = l1 ++ c :: l2 ∧ ∀ x ∈ l1, p x = false := by
  induction l with
  | nil => cases h
  | cons x xs ih =>
    by_cases hx : p x = true
    · rw [List.find?_cons_of_pos _ hx] at h
      injection h with h
      exact ⟨[], xs, by simp [h], by simp⟩
    · rw [List.find?_cons_of_neg _ (by simpa using hx)] at h
      rcases ih h with ⟨l1, l2, rfl, hall⟩
      refine ⟨x :: l1, l2, rfl, ?_⟩
      intro y hy
      rcases List.mem_cons.mp hy with rfl | hy
      · simpa using hx
      · exact hall y hy

theorem nodup_replace {l1 l2 : List β} {a b : β} (h : (l1 ++ a :: l2).Nodup)
    (hb : b ∉ l1 ++ l2) : (l1 ++ b :: l2).Nodup := by
  rw [List.nodup_middle, List.nodup_cons] at h ⊢
  exact ⟨hb, h.2⟩

theorem applyContactUpdates_id (u : UpdateContactInput) (c : Contact) :
    (applyContactUpdates u c).id = c.id := rfl

theorem applyContactUpdates_createdAt (u : UpdateContactInput) (c : Contact) :
    (applyContactUpdates u c).createdAt = c.createdAt := rfl

theorem applyContactUpdates_phone_none {u : UpdateContactInput} (h : u.phone = none)
    (c : Contact) : (applyContactUpdates u c).phone = c.phone := by
  simp [applyContactUpdates, h]

theorem applyContactUpdates_phone_some {u : UpdateContactInput} {p : String}
    (h : u.phone = some p) (c : Contact) : (applyContactUpdates u c).phone = p := by
  simp [applyContactUpdates, h]

theorem good_svcCreateContact (now : String) (st : ContactState)
    (input : CreateContactInput) (h : GoodState st) :
    GoodState (svcCreateContact now st input).2 := by
  have hwf := h.1
  have hph := h.2.1
  have hidn := h.2.2.1
  have hidp := h.2.2.2
  unfold svcCreateContact
  by_cases hv : (validateCreateInput input).isEmpty = true
  · rw [if_pos hv, reloadC_eq_self hwf]
    split
    next c hf => exact h
    next hf =>
      have hnp : ∀ x ∈ st.mem, x.phone ≠ input.phone := by
        intro x hx
        have := List.find?_eq_none.mp hf x hx
        simpa using this
      have hpids : ∀ s ∈ st.mem.map (fun c => c.id), (jsParseInt s).isSome = true := by
        intro s hs
        rcases List.mem_map.mp hs with ⟨c, hc, rfl⟩
        exact hidp c hc
      have hfresh := nextId_fresh (st.mem.map (fun c => c.id)) hpids
      show GoodState (saveC (st.mem ++ [newContact now st input]))
      refine ⟨rfl, ?_, ?_, ?_⟩
      · show (List.map (fun c => c.phone) (st.mem ++ [newContact now st input])).Nodup
        rw [List.map_append, List.nodup_append]
        refine ⟨hph, by simp, ?_⟩
        intro a ha hb
        rcases List.mem_map.mp ha with ⟨x, hx, hxe⟩
        simp only [List.map_cons, List.map_nil, List.mem_singleton] at hb
        exact hnp x hx (by rw [hxe, hb]; rfl)
      · show (List.map (fun c => c.id) (st.mem ++ [newContact now st input])).Nodup
        rw [List.map_append, List.nodup_append]
        refine ⟨hidn, by simp, ?_⟩
        intro a ha hb
        simp only [List.map_cons, List.map_nil, List.mem_singleton] at hb
        exact hfresh a ha (by rw [hb]; rfl)
      · show ∀ c ∈ st.mem ++ [newContact now st input], (jsParseInt c.id).isSome = true
        intro c hc
        rcases List.mem_append.mp hc with hc | hc
        · exact hidp c hc
        · simp only [List.mem_singleton] at hc
          subst hc
          rw [show (newContact now st input).id
              = nextId (st.mem.map (fun c => c.id)) from rfl]
          rw [jsParseInt_nextId _ hpids]
          rfl
  · rw [if_neg hv]
    exact h

theorem good_svcUpdateContactRest (st : ContactState) (id : String)
    (u : UpdateContactInput) (h : GoodState st)
    (hphone : ∀ p, u.phone = some p →
      (∀ x ∈ st.mem, x.phone ≠ p)
      ∨ ∃ c, st.mem.find? (fun x => x.phone == p) = some c ∧ c.id = id) :
    GoodState (svcUpdateContactRest st id u).2 := by
  have hwf := h.1
  have hph := h.2.1
  have hidn := h.2.2.1
  have hidp := h.2.2.2
  unfold svcUpdateContactRest
  rw [reloadC_eq_self hwf]
  split
  next hfid => exact h
  next c0 hfid =>
    by_cases hv : (validateUpdateInput u).isEmpty = true
    · rw [if_pos hv]
      unfold dbUpdateContact
      rw [hfid]
      have hc0 : (c0.id == id) = true := by simpa using List.find?_some hfid
      obtain ⟨l1, l2, hdec, hl1⟩ := find?_eq_some_decomp hfid
      have hmf : modifyFirst (fun c => c.id == id) (applyContactUpdates u) st.mem
          = l1 ++ applyContactUpdates u c0 :: l2 := by
        rw [hdec]
        exact modifyFirst_decomp _ _ _ _ _ hl1 hc0
      show GoodState (saveC (modifyFirst (fun c => c.id == id)
        (applyContactUpdates u) st.mem))
      rw [hmf]
      refine ⟨rfl, ?_, ?_, ?_⟩
      · -- phones stay distinct
        have hsame : (applyContactUpdates u c0).phone = c0.phone
            ∨ ((∀ x ∈ st.mem, x.phone ≠ (applyContactUpdates u c0).phone)) := by
          cases hup : u.phone with
          | none => exact Or.inl (applyContactUpdates_phone_none hup c0)
          | some p =>
            rcases hphone p hup with hno | ⟨cp, hcp, hcpid⟩
            · right
              rw [applyContactUpdates_phone_some hup c0]
              exact hno
            · left
              have hcpmem := List.mem_of_find?_eq_some hcp
              have hc0mem : c0 ∈ st.mem := by rw [hdec]; simp
              have hcpph : cp.phone = p := by simpa using List.find?_some hcp
              have : cp = c0 := by
                apply List.inj_on_of_nodup_map hidn hcpmem hc0mem
                have h1 : cp.id = id := hcpid
                have h2 : c0.id = id := by simpa using hc0
                rw [h1, h2]
              rw [applyContactUpdates_phone_some hup c0, ← hcpph, this]
        show (List.map (fun c => c.phone) (l1 ++ applyContactUpdates u c0 :: l2)).Nodup
        unfold PhonesDistinct at hph
        rcases hsame with hsame | hfreshp
        · rw [List.map_append, List.map_cons, hsame, ← List.map_cons, ← List.map_append,
            ← hdec]
          exact hph
        · rw [hdec] at hph
          rw [List.map_append, List.map_cons] at hph ⊢
          apply nodup_replace hph
          intro hmem
          rcases List.mem_append.mp hmem with hmem | hmem
          · rcases List.mem_map.mp hmem with ⟨x, hx, hxe⟩
            exact hfreshp x (by rw [hdec]; simp [hx]) hxe
          · rcases List.mem_map.mp hmem with ⟨x, hx, hxe⟩
            exact hfreshp x (by rw [hdec]; simp [hx]) hxe
      · -- ids unchanged
        show (List.map (fun c => c.id) (l1 ++ applyContactUpdates u c0 :: l2)).Nodup
        rw [← hmf, map_modifyFirst _ _ _ (fun x => applyContactUpdates_id u x)]
        exact hidn
      · -- ids still parse
        show ∀ c ∈ l1 ++ applyContactUpdates u c0 :: l2, (jsParseInt c.id).isSome = true
        intro x hx
        rcases List.mem_append.mp hx with hx | hx
        · exact hidp x (by rw [hdec]; simp [hx])
        · rcases List.mem_cons.mp hx with rfl | hx
          · rw [applyContactUpdates_id]
            exact hidp c0 (by rw [hdec]; simp)
          · exact hidp x (by rw [hdec]; simp [hx])
    · rw [if_neg hv]
      exact h

theorem good_svcUpdateContact (st : ContactState) (id : String)
    (u : UpdateContactInput) (h : GoodState st) :
    GoodState (svcUpdateContact st id u).2 := by
  unfold svcUpdateContact
  rw [reloadC_eq_self h.1]
  split
  next p hup =>
    split
    next cf hf =>
      split
      next hid => exact h
      next hid =>
        apply good_svcUpdateContactRest st id u h
        intro q hq
        rw [hup] at hq
        injection hq with hq
        subst hq
        right
        exact ⟨cf, hf, not_not.mp hid⟩
    next hf =>
      apply good_svcUpdateContactRest st id u h
      intro q hq
      rw [hup] at hq
      injection hq with hq
      subst hq
      left
      intro x hx
      have := List.find?_eq_none.mp hf x hx
      simpa using this
  next hup =>
    apply good_svcUpdateContactRest st id u h
    intro p hp
    rw [hup] at hp
    cases hp

theorem goodState_foldl (ops : List COp) (st : ContactState) (h : GoodState st) :
    GoodState (ops.foldl applyCOp st) := by
  induction ops generalizing st with
  | nil => exact h
  | cons op rest ih =>
    rw [List.foldl_cons]
    apply ih
    cases op with
    | create now input => exact good_svcCreateContact now st input h
    | update id u => exact good_svcUpdateContact st id u h

def cxContactA : Contact :=
  { id := "1", name := "Ann Lee", email := "a@b.com", phone := "111-1111",
    address := "1 Main Street", createdAt := "T0" }

def cxContactB : Contact :=
  { id := "1", name := "Bob Roy", email := "b@c.com", phone := "222-2222",
    address := "2 Side Street", createdAt := "T0" }

def cxState : ContactState := ⟨[cxContactA, cxContactB], [cxContactA, cxContactB]⟩

def cxOp : COp := COp.update "1" ⟨none, none, some "222-2222", none⟩

/-- C1, counterexample to the claim as stated: the claim assumes only that
the starting state has pairwise-distinct phones.  From a state holding two
contacts that share the id "1" but have distinct phones "111-1111" and
"222-2222", the single service operation `updateContact "1" {phone:
"222-2222"}` passes the phone check (the first contact found with that
phone has the same id "1" as the target), passes existence and validation,
and then mutates the *first* record with id "1" — the one whose phone was
"111-1111" — leaving two contacts with phone "222-2222". -/
theorem C1_counterexample :
    (cxState.mem = cxState.file ∧ PhonesDistinct cxState.mem)
    ∧ ¬ PhonesDistinct (([cxOp].foldl applyCOp cxState).mem) := by decide

/-- C1 (amended): for every sequence of Contact Service create and update
operations starting from a state whose memory agrees with its file, whose
phones are pairwise distinct, and whose ids are pairwise distinct and all
numeric, the resulting collection never contains two distinct contacts
with the same phone; moreover create rejects an input whose phone equals
an existing contact's phone, and update rejects a phone equal to some
other (different-id) contact's phone. -/
theorem C1_phone_uniqueness (ops : List COp) (st : ContactState) (h : GoodState st) :
    PhonesDistinct ((ops.foldl applyCOp st).mem)
    ∧ (∀ now input, (∃ c ∈ st.mem, c.phone = input.phone) →
        ∃ e, (svcCreateContact now st input).1 = Except.error e)
    ∧ (∀ id u p, u.phone = some p → (∃ c ∈ st.mem, c.phone = p ∧ c.id ≠ id) →
        ∃ e, (svcUpdateContact st id u).1 = Except.error e) := by
  refine ⟨(goodState_foldl ops st h).2.1, ?_, ?_⟩
  · intro now input hex
    unfold svcCreateContact
    by_cases hv : (validateCreateInput input).isEmpty = true
    · rw [if_pos hv, reloadC_eq_self h.1]
      rcases hex with ⟨c, hc, hph⟩
      have hsome : (st.mem.find? (fun x => x.phone == input.phone)).isSome = true := by
        rw [List.find?_isSome]
        exact ⟨c, hc, by simpa using hph⟩
      rcases Option.isSome_iff_exists.mp hsome with ⟨c', hc'⟩
      rw [hc']
      exact ⟨_, rfl⟩
    · rw [if_neg hv]
      exact ⟨_, rfl⟩
  · intro id u p hup hex
    unfold svcUpdateContact
    rw [reloadC_eq_self h.1]
    rcases hex with ⟨c, hc, hph, hcid⟩
    split
    next q hq =>
      rw [hup] at hq
      injection hq with hq
      subst hq
      split
      next cf hcf =>
        have hcfph : cf.phone = p := by simpa using List.find?_some hcf
        have hcfmem := List.mem_of_find?_eq_some hcf
        have hceq : c = cf := by
          apply List.inj_on_of_nodup_map h.2.1 hc hcfmem
          rw [hph, hcfph]
        rw [if_pos (by rwa [← hceq])]
        exact ⟨_, rfl⟩
      next hcf =>
        exact absurd hph (by simpa using List.find?_eq_none.mp hcf c hc)
    next hq =>
      rw [hup] at hq
      cases hq

/-- Witness for C1: a concrete good state (one contact, id "1") on which a
create with a fresh phone succeeds and preserves phone distinctness, and
on which the two rejection clauses fire. -/
theorem C1_phone_uniqueness_witness :
    PhonesDistinct
      (([COp.create "T1" ⟨"Bob Roy", "b@c.com", "555-0002", "2 Side Street"⟩].foldl
        applyCOp ⟨[cxContactA], [cxContactA]⟩).mem)
    ∧ (∃ e, (svcCreateContact "T1" ⟨[cxContactA], [cxContactA]⟩
        ⟨"Bob Roy", "b@c.com", "111-1111", "2 Side Street"⟩).1 = Except.error e)
    ∧ (∃ e, (svcUpdateContact ⟨[cxContactA], [cxContactA]⟩ "9"
        ⟨none, none, some "111-1111", none⟩).1 = Except.error e) := by
  have h := C1_phone_uniqueness
    [COp.create "T1" ⟨"Bob Roy", "b@c.com", "555-0002", "2 Side Street"⟩]
    ⟨[cxContactA], [cxContactA]⟩ (by decide)
  refine ⟨h.1, ?_, ?_⟩
  · exact h.2.1 "T1" ⟨"Bob Roy", "b@c.com", "111-1111", "2 Side Street"⟩
      ⟨cxContactA, by decide, by decide⟩
  · exact h.2.2 "9" ⟨none, none, some "111-1111", none⟩ "111-1111" rfl
      ⟨cxContactA, by decide, by decide, by decide⟩

/-- C2: `updateContact` (service) first checks phone uniqueness against
other records when a phone is present (the first record carrying that
phone must be the record being updated), then checks existence of the id,
then runs partial shape validation, and only then delegates to the store.
The four conjuncts characterise the four outcomes in that order; in
particular the first one applies without any existence requirement on the
id, so a nonexistent id combined with a phone duplicating another contact
yields the phone-duplicate validation failure, not the not-found
failure. -/
theorem C2_update_check_ordering (st : ContactState) (id : String)
    (u : UpdateContactInput) (hwf : st.mem = st.file) :
    (∀ p c, u.phone = some p → st.mem.find? (fun x => x.phone == p) = some c →
      c.id ≠ id →
      svcUpdateContact st id u
        = (Except.error "Validation failed: phone: Phone number already exists", st))
    ∧ ((∀ p c, u.phone = some p → st.mem.find? (fun x => x.phone == p) = some c →
          c.id = id) →
        st.mem.find? (fun c => c.id == id) = none →
        svcUpdateContact st id u
          = (Except.error ("Contact with ID " ++ id ++ " not found"), st))
    ∧ ((∀ p c, u.phone = some p → st.mem.find? (fun x => x.phone == p) = some c →
          c.id = id) →
        (∃ c0, st.mem.find? (fun c => c.id == id) = some c0) →
        (validateUpdateInput u).isEmpty = false →
        svcUpdateContact st id u
          = (Except.error (joinErrors (validateUpdateInput u)), st))
    ∧ ((∀ p c, u.phone = some p → st.mem.find? (fun x => x.phone == p) = some c →
          c.id = id) →
        (∃ c0, st.mem.find? (fun c => c.id == id) = some c0) →
        (validateUpdateInput u).isEmpty = true →
        svcUpdateContact st id u = dbUpdateContact st id u) := by
  refine ⟨?_, ?_, ?_, ?_⟩
  · intro p c hup hf hne
    unfold svcUpdateContact
    rw [reloadC_eq_self hwf]
    split
    next q hq =>
      rw [hup] at hq
      injection hq with hq
      subst hq
      split
      next cf hcf =>
        rw [hf] at hcf
        injection hcf with hcf
        subst hcf
        rw [if_pos hne]
      next hcf =>
        rw [hf] at hcf
        cases hcf
    next hq =>
      rw [hup] at hq
      cases hq
  · intro hgate hnone
    unfold svcUpdateContact
    rw [reloadC_eq_self hwf]
    split
    next q hq =>
      split
      next cf hcf =>
        rw [if_neg (by simpa using hgate q cf hq hcf)]
        unfold svcUpdateContactRest
        rw [reloadC_eq_self hwf, hnone]
      next hcf =>
        unfold svcUpdateContactRest
        rw [reloadC_eq_self hwf, hnone]
    next hq =>
      unfold svcUpdateContactRest
      rw [reloadC_eq_self hwf, hnone]
  · intro hgate hsome hv
    rcases hsome with ⟨c0, hc0⟩
    unfold svcUpdateContact
    rw [reloadC_eq_self hwf]
    split
    next q hq =>
      split
      next cf hcf =>
        rw [if_neg (by simpa using hgate q cf hq hcf)]
        unfold svcUpdateContactRest
        rw [reloadC_eq_self hwf, hc0, hv]
        rfl
      next hcf =>
        unfold svcUpdateContactRest
        rw [reloadC_eq_self hwf, hc0, hv]
        rfl
    next hq =>
      unfold svcUpdateContactRest
      rw [reloadC_eq_self hwf, hc0, hv]
      rfl
  · intro hgate hsome hv
    rcases hsome with ⟨c0, hc0⟩
    unfold svcUpdateContact
    rw [reloadC_eq_self hwf]
    split
    next q hq =>
      split
      next cf hcf =>
        rw [if_neg (by simpa using hgate q cf hq hcf)]
        unfold svcUpdateContactRest
        rw [reloadC_eq_self hwf, hc0, hv]
        rfl
      next hcf =>
        unfold svcUpdateContactRest
        rw [reloadC_eq_self hwf, hc0, hv]
        rfl
    next hq =>
      unfold svcUpdateContactRest
      rw [reloadC_eq_self hwf, hc0, hv]
      rfl

/-- Witness for C2: on a store holding only a contact with id "1" and
phone "111-1111", updating the *nonexistent* id "9" with that same phone
raises the phone-duplicate validation failure (not the not-found
failure). -/
theorem C2_update_check_ordering_witness :
    svcUpdateContact ⟨[cxContactA], [cxContactA]⟩ "9"
        ⟨none, none, some "111-1111", none⟩
      = (Except.error "Validation failed: phone: Phone number already exists",
         ⟨[cxContactA], [cxContactA]⟩) :=
  (C2_update_check_ordering ⟨[cxContactA], [cxContactA]⟩ "9"
      ⟨none, none, some "111-1111", none⟩ rfl).1
    "111-1111" cxContactA rfl (by decide) (by decide)

/-- C3: at the contact store, update of an absent id raises not-found and
leaves the whole state unchanged, while delete of an absent id returns
`false` without raising and leaves the state unchanged; for an id present
(first occurrence decomposed as `l1 ++ c :: l2` with no earlier match),
update succeeds, rewrites only the provided fields of that record (id and
`createdAt` never change, each absent field keeps its value, each provided
field takes the provided value) leaving all other records in place, and
delete removes exactly that record and returns `true`. -/
theorem C3_store_error_asymmetry (st : ContactState) (id : String)
    (u : UpdateContactInput) :
    (st.mem.find? (fun c => c.id == id) = none →
      dbUpdateContact st id u
        = (Except.error ("Contact with ID " ++ id ++ " not found"), st)
      ∧ dbDeleteContact st id = (false, st))
    ∧ (∀ l1 c l2, st.mem = l1 ++ c :: l2 → (∀ x ∈ l1, (x.id == id) = false) →
        (c.id == id) = true →
        dbUpdateContact st id u
          = (Except.ok (applyContactUpdates u c),
             saveC (l1 ++ applyContactUpdates u c :: l2))
        ∧ (applyContactUpdates u c).id = c.id
        ∧ (applyContactUpdates u c).createdAt = c.createdAt
        ∧ (u.name = none → (applyContactUpdates u c).name = c.name)
        ∧ (∀ v, u.name = some v → (applyContactUpdates u c).name = v)
        ∧ (u.email = none → (applyContactUpdates u c).email = c.email)
        ∧ (∀ v, u.email = some v → (applyContactUpdates u c).email = v)
        ∧ (u.phone = none → (applyContactUpdates u c).phone = c.phone)
        ∧ (∀ v, u.phone = some v → (applyContactUpdates u c).phone = v)
        ∧ (u.address = none → (applyContactUpdates u c).address = c.address)
        ∧ (∀ v, u.address = some v → (applyContactUpdates u c).address = v)
        ∧ dbDeleteContact st id = (true, saveC (l1 ++ l2))) := by
  constructor
  · intro hnone
    constructor
    · unfold dbUpdateContact
      rw [hnone]
    · unfold dbDeleteContact
      rw [hnone]
  · intro l1 c l2 hdec hl1 hcid
    have hfind : st.mem.find? (fun c => c.id == id) = some c := by
      rw [hdec]
      exact find?_decomp _ _ _ _ hl1 hcid
    refine ⟨?_, rfl, rfl, ?_, ?_, ?_, ?_, ?_, ?_, ?_, ?_, ?_⟩
    · unfold dbUpdateContact
      rw [hfind, hdec, modifyFirst_decomp _ _ _ _ _ hl1 hcid]
    · intro h
      simp [applyContactUpdates, h]
    · intro v h
      simp [applyContactUpdates, h]
    · intro h
      simp [applyContactUpdates, h]
    · intro v h
      simp [applyContactUpdates, h]
    · intro h
      simp [applyContactUpdates, h]
    · intro v h
      simp [applyContactUpdates, h]
    · intro h
      simp [applyContactUpdates, h]
    · intro v h
      simp [applyContactUpdates, h]
    · unfold dbDeleteContact
      rw [hfind, hdec, eraseP_decomp _ _ _ _ hl1 hcid]

/-- Witness for C3: on a one-contact store, updating the present id "1"
with a new name succeeds, and updating or deleting the absent id "9"
produces the not-found error and `false` respectively. -/
theorem C3_store_error_asymmetry_witness :
    (dbUpdateContact ⟨[cxContactA], [cxContactA]⟩ "9"
        ⟨some "New Name", none, none, none⟩
      = (Except.error "Contact with ID 9 not found", ⟨[cxContactA], [cxContactA]⟩))
    ∧ dbDeleteContact ⟨[cxContactA], [cxContactA]⟩ "9"
        = (false, ⟨[cxContactA], [cxContactA]⟩)
    ∧ dbUpdateContact ⟨[cxContactA], [cxContactA]⟩ "1"
        ⟨some "New Name", none, none, none⟩
      = (Except.ok (applyContactUpdates ⟨some "New Name", none, none, none⟩ cxContactA),
         saveC [applyContactUpdates ⟨some "New Name", none, none, none⟩ cxContactA])
    ∧ dbDeleteContact ⟨[cxContactA], [cxContactA]⟩ "1" = (true, saveC []) := by
  have habsent := (C3_store_error_asymmetry ⟨[cxContactA], [cxContactA]⟩ "9"
    ⟨some "New Name", none, none, none⟩).1 (by decide)
  have hpresent := (C3_store_error_asymmetry ⟨[cxContactA], [cxContactA]⟩ "1"
    ⟨some "New Name", none, none, none⟩).2 [] cxContactA [] rfl (by decide) (by decide)
  exact ⟨habsent.1, habsent.2, hpresent.1, hpresent.2.2.2.2.2.2.2.2.2.2.2⟩

/-- C4: when every existing id parses as a number, the store create
operations return an entity whose id is (max of the existing numeric ids
and 0) plus 1, stringified — hence distinct from every existing id — with
the input's fields and the current timestamp, append it to the collection,
and on an empty collection assign id "1".  Proven for the contact store
and the task store. -/
theorem C4_id_assignment (now : String) (st : ContactState)
    (input : CreateContactInput) (tst : TaskState) (tinput : CreateTaskInput)
    (hc : ∀ s ∈ st.mem.map (fun c => c.id), (jsParseInt s).isSome = true)
    (ht : ∀ s ∈ tst.file.map (fun t => t.id), (jsParseInt s).isSome = true) :
    ((dbCreateContact now st input).1.id
        = intToString (maxNumericId (st.mem.map (fun c => c.id)) + 1)
      ∧ (∀ c ∈ st.mem, c.id ≠ (dbCreateContact now st input).1.id)
      ∧ (dbCreateContact now st input).2.mem
          = st.mem ++ [(dbCreateContact now st input).1]
      ∧ (dbCreateContact now st input).2.file
          = st.mem ++ [(dbCreateContact now st input).1]
      ∧ (st.mem = [] → (dbCreateContact now st input).1.id = "1")
      ∧ (dbCreateContact now st input).1.name = input.name
      ∧ (dbCreateContact now st input).1.email = input.email
      ∧ (dbCreateContact now st input).1.phone = input.phone
      ∧ (dbCreateContact now st input).1.address = input.address
      ∧ (dbCreateContact now st input).1.createdAt = now)
    ∧ ((dbCreateTask now tst tinput).1.id
        = intToString (maxNumericId (tst.file.map (fun t => t.id)) + 1)
      ∧ (∀ t ∈ tst.file, t.id ≠ (dbCreateTask now tst tinput).1.id)
      ∧ (dbCreateTask now tst tinput).2.mem
          = tst.file ++ [(dbCreateTask now tst tinput).1]
      ∧ (tst.file = [] → (dbCreateTask now tst tinput).1.id = "1")
      ∧ (dbCreateTask now tst tinput).1.completed = false) := by
  constructor
  · refine ⟨nextId_eq _ hc, ?_, rfl, rfl, ?_, rfl, rfl, rfl, rfl, rfl⟩
    · intro c hcm heq
      exact nextId_fresh _ hc c.id (List.mem_map.mpr ⟨c, hcm, rfl⟩) heq
    · intro he
      show nextId (st.mem.map (fun c => c.id)) = "1"
      rw [he]
      exact nextId_nil
  · refine ⟨nextId_eq _ ht, ?_, rfl, ?_, rfl⟩
    · intro t htm heq
      exact nextId_fresh _ ht t.id (List.mem_map.mpr ⟨t, htm, rfl⟩) heq
    · intro he
      show nextId (tst.file.map (fun t => t.id)) = "1"
      rw [he]
      exact nextId_nil

/-- Witness for C4: a contact store holding numeric ids "1" and "10"
assigns the stringified maximum plus one, and an empty task store assigns
id "1". -/
theorem C4_id_assignment_witness :
    ((dbCreateContact "T1"
        ⟨[cxContactA, { cxContactA with id := "10", phone := "333-3333" }],
         [cxContactA, { cxContactA with id := "10", phone := "333-3333" }]⟩
        ⟨"Bob Roy", "b@c.com", "555-0002", "2 Side Street"⟩).1.id
      = intToString (maxNumericId ["1", "10"] + 1))
    ∧ ((dbCreateTask "T1" ⟨[], [], 0⟩
        ⟨"c1", "Call back", none, none⟩).1.id = "1") := by
  have h := C4_id_assignment "T1"
    ⟨[cxContactA, { cxContactA with id := "10", phone := "333-3333" }],
     [cxContactA, { cxContactA with id := "10", phone := "333-3333" }]⟩
    ⟨"Bob Roy", "b@c.com", "555-0002", "2 Side Street"⟩
    ⟨[], [], 0⟩ ⟨"c1", "Call back", none, none⟩ (by decide) (by decide)
  exact ⟨h.1.1, h.2.2.2.2.1 rfl⟩

theorem reloadT_mem (st : TaskState) : (reloadT st).mem = st.file := rfl

theorem saveT_mem (m : List Task) (st : TaskState) : (saveT m st).mem = m := rfl

theorem saveT_file (m : List Task) (st : TaskState) : (saveT m st).file = m := rfl

theorem saveT_writes (m : List Task) (st : TaskState) :
    (saveT m st).writes = st.writes + 1 := rfl

/-- Store-level task update, characterised on the decomposition of the
file contents at the first record whose id matches. -/
theorem dbUpdateTask_decomp (now : String) (tst : TaskState) (tid : String)
    (u : UpdateTaskInput) (m1 : List Task) (t : Task) (m2 : List Task)
    (htdec : tst.file = m1 ++ t :: m2) (hm1 : ∀ x ∈ m1, (x.id == tid) = false)
    (ht : (t.id == tid) = true) :
    dbUpdateTask now tst tid u
      = (Except.ok (applyTaskUpdates now u t),
         saveT (m1 ++ applyTaskUpdates now u t :: m2) (reloadT tst)) := by
  unfold dbUpdateTask
  have hfind : tst.file.find? (fun x => x.id == tid) = some t := by
    rw [htdec]
    exact find?_decomp _ _ _ _ hm1 ht
  rw [reloadT_mem, hfind, htdec, modifyFirst_decomp _ _ _ _ _ hm1 ht]

/-- Store-level toggle, characterised on the decomposition of the file
contents at the first record whose id matches. -/
theorem dbToggleTask_decomp (now : String) (tst : TaskState) (tid : String)
    (m1 : List Task) (t : Task) (m2 : List Task)
    (htdec : tst.file = m1 ++ t :: m2) (hm1 : ∀ x ∈ m1, (x.id == tid) = false)
    (ht : (t.id == tid) = true) :
    dbToggleTask now tst tid
      = (Except.ok { t with completed := !t.completed, updatedAt := now },
         saveT (m1 ++ { t with completed := !t.completed, updatedAt := now } :: m2)
           (reloadT tst)) := by
  unfold dbToggleTask
  have hfind : tst.file.find? (fun x => x.id == tid) = some t := by
    rw [htdec]
    exact find?_decomp _ _ _ _ hm1 ht
  rw [reloadT_mem, hfind, htdec, modifyFirst_decomp _ _ _ _ _ hm1 ht]

/-- C5: updating a present contact id with the empty partial input leaves
every contact (and every field, timestamps included) unchanged — the
returned entity is the stored one and the collection written back is the
old collection itself; updating a present task id with the empty partial
input refreshes `updatedAt` to the current timestamp but changes nothing
else (and no other task), and `toggleTask` likewise always refreshes
`updatedAt`. -/
theorem C5_empty_update_frame (st : ContactState) (id : String)
    (l1 : List Contact) (c : Contact) (l2 : List Contact)
    (hdec : st.mem = l1 ++ c :: l2) (hl1 : ∀ x ∈ l1, (x.id == id) = false)
    (hcid : (c.id == id) = true)
    (now : String) (tst : TaskState) (tid : String)
    (m1 : List Task) (t : Task) (m2 : List Task)
    (htdec : tst.file = m1 ++ t :: m2) (hm1 : ∀ x ∈ m1, (x.id == tid) = false)
    (ht : (t.id == tid) = true) :
    dbUpdateContact st id ⟨none, none, none, none⟩ = (Except.ok c, saveC st.mem)
    ∧ dbUpdateTask now tst tid ⟨none, none, none, none⟩
        = (Except.ok { t with updatedAt := now },
           saveT (m1 ++ { t with updatedAt := now } :: m2) (reloadT tst))
    ∧ dbToggleTask now tst tid
        = (Except.ok { t with completed := !t.completed, updatedAt := now },
           saveT (m1 ++ { t with completed := !t.completed, updatedAt := now } :: m2)
             (reloadT tst)) := by
  refine ⟨?_, ?_, ?_⟩
  · unfold dbUpdateContact
    have hfind : st.mem.find? (fun x => x.id == id) = some c := by
      rw [hdec]
      exact find?_decomp _ _ _ _ hl1 hcid
    rw [hfind, hdec, modifyFirst_decomp _ _ _ _ _ hl1 hcid]
    rfl
  · exact dbUpdateTask_decomp now tst tid ⟨none, none, none, none⟩ m1 t m2 htdec hm1 ht
  · exact dbToggleTask_decomp now tst tid m1 t m2 htdec hm1 ht

def cxTask : Task :=
  { id := "1", contactId := "7", title := "Call back", description := some "soon",
    completed := false, dueDate := none, createdAt := "T0", updatedAt := "T0" }

/-- Witness for C5 at a singleton contact store and singleton task store. -/
theorem C5_empty_update_frame_witness :
    dbUpdateContact ⟨[cxContactA], [cxContactA]⟩ "1" ⟨none, none, none, none⟩
      = (Except.ok cxContactA, saveC [cxContactA])
    ∧ dbUpdateTask "T1" ⟨[cxTask], [cxTask], 0⟩ "1" ⟨none, none, none, none⟩
      = (Except.ok { cxTask with updatedAt := "T1" },
         saveT [{ cxTask with updatedAt := "T1" }] (reloadT ⟨[cxTask], [cxTask], 0⟩)) := by
  have h := C5_empty_update_frame ⟨[cxContactA], [cxContactA]⟩ "1" [] cxContactA []
    rfl (by decide) (by decide) "T1" ⟨[cxTask], [cxTask], 0⟩ "1" [] cxTask []
    rfl (by decide) (by decide)
  exact ⟨h.1, h.2.1⟩

/-- C10: toggling a present task id flips only `completed` and refreshes
`updatedAt`, leaving every other field of that task and every other task
unchanged; toggling twice returns `completed` to its original value
(the final task differs from the original only in `updatedAt`). -/
theorem C10_toggle_involution (now1 now2 : String) (tst : TaskState) (tid : String)
    (m1 : List Task) (t : Task) (m2 : List Task)
    (htdec : tst.file = m1 ++ t :: m2) (hm1 : ∀ x ∈ m1, (x.id == tid) = false)
    (ht : (t.id == tid) = true) :
    (dbToggleTask now1 tst tid).1
      = Except.ok { t with completed := !t.completed, updatedAt := now1 }
    ∧ (dbToggleTask now1 tst tid).2.mem
      = m1 ++ { t with completed := !t.completed, updatedAt := now1 } :: m2
    ∧ (dbToggleTask now2 (dbToggleTask now1 tst tid).2 tid).1
      = Except.ok { t with updatedAt := now2 }
    ∧ (dbToggleTask now2 (dbToggleTask now1 tst tid).2 tid).2.mem
      = m1 ++ { t with updatedAt := now2 } :: m2 := by
  have h1 := dbToggleTask_decomp now1 tst tid m1 t m2 htdec hm1 ht
  have hfile1 : (dbToggleTask now1 tst tid).2.file
      = m1 ++ { t with completed := !t.completed, updatedAt := now1 } :: m2 := by
    rw [h1]
    rfl
  have h2 := dbToggleTask_decomp now2 (dbToggleTask now1 tst tid).2 tid m1
    { t with completed := !t.completed, updatedAt := now1 } m2 hfile1 hm1 ht
  have hdouble : ({ t with
        completed := !(!t.completed), updatedAt := now2 } : Task)
      = { t with updatedAt := now2 } := by
    cases t
    simp
  refine ⟨by rw [h1], by rw [h1]; rfl, ?_, ?_⟩
  · rw [h2]
    show Except.ok ({ t with completed := !(!t.completed), updatedAt := now2 } : Task)
      = Except.ok ({ t with updatedAt := now2 } : Task)
    rw [hdouble]
  · rw [h2]
    show m1 ++ ({ t with completed := !(!t.completed), updatedAt := now2 } : Task) :: m2
      = m1 ++ ({ t with updatedAt := now2 } : Task) :: m2
    rw [hdouble]

/-- Witness for C10: toggling the singleton task twice restores
`completed := false` and leaves only `updatedAt` changed. -/
theorem C10_toggle_involution_witness :
    (dbToggleTask "T1" ⟨[cxTask], [cxTask], 0⟩ "1").1
      = Except.ok { cxTask with completed := true, updatedAt := "T1" }
    ∧ (dbToggleTask "T2" (dbToggleTask "T1" ⟨[cxTask], [cxTask], 0⟩ "1").2 "1").1
      = Except.ok { cxTask with updatedAt := "T2" } := by
  have h := C10_toggle_involution "T1" "T2" ⟨[cxTask], [cxTask], 0⟩ "1" [] cxTask []
    rfl (by decide) (by decide)
  exact ⟨h.1, h.2.2.1⟩

theorem length_filter_add_length_filter_not (p : α → Bool) (l : List α) :
    (l.filter p).length + (l.filter (fun a => !(p a))).length = l.length := by
  induction l with
  | nil => rfl
  | cons x xs ih => by_cases hx : p x = true <;> simp [List.filter_cons, hx] <;> omega

theorem length_sub_filter (p : α → Bool) (l : List α) :
    l.length - (l.filter (fun a => !(p a))).length = (l.filter p).length := by
  have h := length_filter_add_length_filter_not p l
  omega

/-- C9: `deleteTasksByContactId` removes exactly the tasks whose
`contactId` equals the argument, keeping all other tasks in order; it
returns the number removed; it increments the file-write count only when
that number is positive (and then the file holds the filtered
collection); afterwards no stored task references that `contactId`; and
when no task matches it returns 0 and leaves the state — file and write
count included — untouched. -/
theorem C9_cascade_delete (st : TaskState) (cid : String) (hwf : st.mem = st.file) :
    (dbDeleteTasksByContactId st cid).1
      = (st.mem.filter (fun t => t.contactId == cid)).length
    ∧ (dbDeleteTasksByContactId st cid).2.mem
      = st.mem.filter (fun t => !(t.contactId == cid))
    ∧ (∀ t ∈ (dbDeleteTasksByContactId st cid).2.mem, t.contactId ≠ cid)
    ∧ (dbDeleteTasksByContactId st cid).2.writes
      = st.writes + (if 0 < (dbDeleteTasksByContactId st cid).1 then 1 else 0)
    ∧ (dbDeleteTasksByContactId st cid).2.file
      = (if 0 < (dbDeleteTasksByContactId st cid).1
         then st.mem.filter (fun t => !(t.contactId == cid)) else st.file)
    ∧ ((∀ t ∈ st.mem, t.contactId ≠ cid) →
        (dbDeleteTasksByContactId st cid).1 = 0
        ∧ (dbDeleteTasksByContactId st cid).2 = st) := by
  have hcount : (dbDeleteTasksByContactId st cid).1
      = (st.mem.filter (fun t => t.contactId == cid)).length := by
    unfold dbDeleteTasksByContactId
    rw [reloadT_mem, ← hwf, length_sub_filter]
    split
    · rfl
    · rfl
  have hmem : (dbDeleteTasksByContactId st cid).2.mem
      = st.mem.filter (fun t => !(t.contactId == cid)) := by
    unfold dbDeleteTasksByContactId
    rw [reloadT_mem, ← hwf, length_sub_filter]
    split
    · rfl
    · rfl
  refine ⟨hcount, hmem, ?_, ?_, ?_, ?_⟩
  · intro t htm
    rw [hmem] at htm
    have := (List.mem_filter.mp htm).2
    simpa using this
  · rw [hcount]
    unfold dbDeleteTasksByContactId
    rw [reloadT_mem, ← hwf, length_sub_filter]
    by_cases hpos : 0 < (st.mem.filter (fun t => t.contactId == cid)).length
    · simp only [hpos, if_true, if_pos hpos]
      rfl
    · simp only [hpos, if_false, if_neg hpos]
      rfl
  · rw [hcount]
    unfold dbDeleteTasksByContactId
    rw [reloadT_mem, ← hwf, length_sub_filter]
    by_cases hpos : 0 < (st.mem.filter (fun t => t.contactId == cid)).length
    · simp only [hpos, if_true, if_pos hpos]
      rfl
    · simp only [hpos, if_false, if_neg hpos]
      rw [show (reloadT st).file = st.file from rfl, ← hwf]
  · intro hnone
    have hfilter : st.mem.filter (fun t => !(t.contactId == cid)) = st.mem := by
      apply List.filter_eq_self.mpr
      intro t htm
      simpa using hnone t htm
    have hcnt0 : (st.mem.filter (fun t => t.contactId == cid)).length = 0 := by
      rw [List.length_eq_zero]
      apply List.filter_eq_nil_iff.mpr
      intro t htm
      simpa using hnone t htm
    refine ⟨by rw [hcount, hcnt0], ?_⟩
    unfold dbDeleteTasksByContactId
    rw [reloadT_mem, ← hwf, length_sub_filter, hcnt0]
    rw [if_neg (by omega)]
    rw [hfilter]
    show ({ mem := st.mem, file := st.file, writes := st.writes } : TaskState) = st
    rfl

def cxTaskB : Task :=
  { id := "2", contactId := "8", title := "Send mail", description := none,
    completed := true, dueDate := none, createdAt := "T0", updatedAt := "T0" }

/-- Witness for C9 on a two-task store: deleting contact "7" tasks removes
exactly the matching task and counts one write; contact "9" matches
nothing, so the call returns 0 and leaves the state untouched. -/
theorem C9_cascade_delete_witness :
    (dbDeleteTasksByContactId ⟨[cxTask, cxTaskB], [cxTask, cxTaskB], 0⟩ "7").1 = 1
    ∧ (dbDeleteTasksByContactId ⟨[cxTask, cxTaskB], [cxTask, cxTaskB], 0⟩ "7").2.mem
        = [cxTaskB]
    ∧ (dbDeleteTasksByContactId ⟨[cxTask, cxTaskB], [cxTask, cxTaskB], 0⟩ "9").1 = 0
    ∧ (dbDeleteTasksByContactId ⟨[cxTask, cxTaskB], [cxTask, cxTaskB], 0⟩ "9").2
        = ⟨[cxTask, cxTaskB], [cxTask, cxTaskB], 0⟩ := by
  have h7 := C9_cascade_delete ⟨[cxTask, cxTaskB], [cxTask, cxTaskB], 0⟩ "7" rfl
  have h9 := (C9_cascade_delete ⟨[cxTask, cxTaskB], [cxTask, cxTaskB], 0⟩ "9" rfl).2.2.2.2.2
    (by decide)
  refine ⟨?_, ?_, h9.1, h9.2⟩
  · rw [h7.1]
    decide
  · rw [h7.2.1]
    decide

/-- C8: the Task Service create path runs only shape validation (non-blank
`contactId`, title, description, dueDate) and then delegates to the task
store; it never consults the Contact Store, so for any contact collection
— including one containing no contact with the input's `contactId` (the
quantified `contacts` with `hnoc` below) — a shape-valid task is created
and stored as an orphan. -/
theorem C8_orphan_tasks (today : Date3) (now : String) (tst : TaskState)
    (input : CreateTaskInput) (contacts : List Contact)
    (hcid : jsTrim input.contactId ≠ "")
    (htitle : validateTitle input.title = none)
    (hdesc : validateDescription input.description = none)
    (hdue : validateDueDate today input.dueDate = none)
    (hnoc : ∀ c ∈ contacts, c.id ≠ input.contactId) :
    svcCreateTask today now tst input
      = (Except.ok (newTask now tst input),
         saveT (tst.file ++ [newTask now tst input]) (reloadT tst))
    ∧ (newTask now tst input).contactId = input.contactId
    ∧ (∀ c ∈ contacts, c.id ≠ (newTask now tst input).contactId)
    ∧ (newTask now tst input).completed = false
    ∧ (saveT (tst.file ++ [newTask now tst input]) (reloadT tst)).mem
        = tst.file ++ [newTask now tst input] := by
  have hcontact : validateContactId input.contactId = none := by
    unfold validateContactId
    rw [if_neg hcid]
  have hval : validateCreateTaskInput today input = [] := by
    unfold validateCreateTaskInput
    rw [hcontact, htitle, hdesc, hdue]
    rfl
  refine ⟨?_, rfl, hnoc, rfl, rfl⟩
  unfold svcCreateTask
  rw [hval]
  rfl

/-- Witness for C8: a shape-valid task for contact id "42" is created even
though the (nonempty) contact store contains no contact with id "42". -/
theorem C8_orphan_tasks_witness :
    svcCreateTask ⟨2025, 6, 1⟩ "T1" ⟨[], [], 0⟩ ⟨"42", "Call back", none, none⟩
      = (Except.ok (newTask "T1" ⟨[], [], 0⟩ ⟨"42", "Call back", none, none⟩),
         saveT ([] ++ [newTask "T1" ⟨[], [], 0⟩ ⟨"42", "Call back", none, none⟩])
           (reloadT ⟨[], [], 0⟩)) :=
  (C8_orphan_tasks ⟨2025, 6, 1⟩ "T1" ⟨[], [], 0⟩ ⟨"42", "Call back", none, none⟩
    [cxContactA] (by decide) (by decide) (by decide) (by decide) (by decide)).1

/-- C7: the task due-date validator accepts an absent or falsy (empty
string) due date; a present nonempty due date is accepted exactly when it
has the `YYYY-MM-DD` digit shape, its components form a real calendar
date, and its date-only value is not below today's (`dateLT dt today =
false`, i.e. the date is ≥ today in the lexicographic order on (year,
month, day) that models the local-midnight comparison).  With today =
2025-06-01, "2025-01-01" is rejected as past, "2099-12-31" is accepted,
and "2025-13-01" is rejected as an invalid calendar date. -/
theorem C7_dueDate_validation :
    (∀ today, validateDueDate today none = none)
    ∧ (∀ today, validateDueDate today (some "") = none)
    ∧ (∀ today s, s ≠ "" →
        (validateDueDate today (some s) = none ↔
          ∃ dt, parseDueDate s = some dt ∧ validCalendarDate dt = true
            ∧ dateLT dt today = false))
    ∧ validateDueDate ⟨2025, 6, 1⟩ (some "2025-01-01")
        = some "Due date cannot be less than current date"
    ∧ validateDueDate ⟨2025, 6, 1⟩ (some "2099-12-31") = none
    ∧ validateDueDate ⟨2025, 6, 1⟩ (some "2025-13-01")
        = some "Due date is not a valid date" := by
  refine ⟨fun today => rfl, fun today => rfl, ?_, by decide, by decide, by decide⟩
  intro today s hne
  show (if s = "" then none
    else
      match parseDueDate s with
      | none => some "Due date must be in ISO format: YYYY-MM-DD"
      | some dt =>
        if (!validCalendarDate dt) = true then some "Due date is not a valid date"
        else if dateLT dt today = true then
          some "Due date cannot be less than current date"
        else none) = none ↔ _
  rw [if_neg hne]
  split
  next hp =>
    constructor
    · intro h
      cases h
    · rintro ⟨dt, hdt, _⟩
      rw [hp] at hdt
      cases hdt
  next dt hp =>
    by_cases hval : validCalendarDate dt = true
    · by_cases hlt : dateLT dt today = true
      · simp only [hval, hlt, Bool.not_true, Bool.false_eq_true, if_false, if_true]
        constructor
        · intro h
          cases h
        · rintro ⟨dt', hdt', _, hlt'⟩
          rw [hp] at hdt'
          injection hdt' with hdt'
          subst hdt'
          rw [hlt] at hlt'
          cases hlt'
      · have hlt' : dateLT dt today = false := by simpa using hlt
        simp only [hval, hlt', Bool.not_true, Bool.false_eq_true, if_false]
        constructor
        · intro _
          exact ⟨dt, hp, hval, hlt'⟩
        · intro _
          trivial
    · have hval' : validCalendarDate dt = false := by
        simpa using hval
      simp only [hval', Bool.not_false, if_true]
      constructor
      · intro h
        cases h
      · rintro ⟨dt', hdt', hv', _⟩
        rw [hp] at hdt'
        injection hdt' with hdt'
        subst hdt'
        rw [hval'] at hv'
        cases hv' 

/-- Witness for C7: "2099-12-31" is accepted for today = 2025-06-01, and
by the characterisation it parses, is a real calendar date, and is not
before today. -/
theorem C7_dueDate_validation_witness :
    ∃ dt, parseDueDate "2099-12-31" = some dt ∧ validCalendarDate dt = true
      ∧ dateLT dt ⟨2025, 6, 1⟩ = false :=
  (C7_dueDate_validation.2.2.1 ⟨2025, 6, 1⟩ "2099-12-31" (by decide)).mp (by decide)

theorem cmpVal_le_zero_iff {α : Type} [LinearOrder α] (x y : α) (d : SortDir) :
    (cmpVal x y d ≤ 0) ↔ (match d with | .asc => x ≤ y | .desc => y ≤ x) := by
  cases d <;> unfold cmpVal <;> rcases lt_trichotomy x y with h | h | h
  · simp [h, le_of_lt h]
  · subst h
    simp [lt_irrefl]
  · simp [h, lt_asymm h, not_le.mpr h]
  · simp [h, not_le.mpr h]
  · subst h
    simp [lt_irrefl]
  · simp [h, lt_asymm h, le_of_lt h]

theorem contactCompare_trans (getTime : String → Int) (sortBy : SortField)
    (direction : SortDir) (a b c : Contact)
    (hab : contactCompare getTime sortBy direction a b ≤ 0)
    (hbc : contactCompare getTime sortBy direction b c ≤ 0) :
    contactCompare getTime sortBy direction a c ≤ 0 := by
  cases sortBy <;> cases direction <;>
    (unfold contactCompare at hab hbc ⊢
     rw [cmpVal_le_zero_iff] at hab hbc ⊢) <;>
    first
      | exact le_trans hab hbc
      | exact le_trans hbc hab

theorem contactCompare_total (getTime : String → Int) (sortBy : SortField)
    (direction : SortDir) (a b : Contact) :
    contactCompare getTime sortBy direction a b ≤ 0
    ∨ contactCompare getTime sortBy direction b a ≤ 0 := by
  cases sortBy <;> cases direction <;>
    (unfold contactCompare
     rw [cmpVal_le_zero_iff, cmpVal_le_zero_iff]) <;>
    exact le_total _ _

/-- C6: `sortContacts` returns a permutation of its input ordered by the
three-valued comparator of the source (case-insensitive string compare on
`name`/`email`, timestamp compare via `getTime` on `createdAt`, sign
flipped for the descending direction).  The embedding is a pure function
on lists, so the input list itself is unchanged by construction — the
content of the purity claim is that the output is a reordering (a
permutation) of the very same elements, not a mutation of them. -/
theorem C6_sortContacts_pure (getTime : String → Int) (l : List Contact)
    (sortBy : SortField) (direction : SortDir) :
    (sortContacts getTime l sortBy direction).Perm l
    ∧ (sortContacts getTime l sortBy direction).Pairwise
        (fun a b => contactCompare getTime sortBy direction a b ≤ 0) := by
  constructor
  · exact List.mergeSort_perm l _
  · have hs := @List.sorted_mergeSort Contact
      (fun a b : Contact =>
        decide (contactCompare getTime sortBy direction a b ≤ 0))
      (fun a b c hab hbc => decide_eq_true
        (contactCompare_trans getTime sortBy direction a b c
          (of_decide_eq_true hab) (of_decide_eq_true hbc)))
      (fun a b => by
        rw [Bool.or_eq_true]
        rcases contactCompare_total getTime sortBy direction a b with h | h
        · exact Or.inl (decide_eq_true h)
        · exact Or.inr (decide_eq_true h))
      l
    exact hs.imp (fun hab => of_decide_eq_true hab)

end ContactMgmt
